import Mathlib

/-!
Verification development for the sqlite3_wrapper repository: a shallow
embedding of the header-only SQLite wrapper (statement execute and fetch
state machine, type_traits bind and column adapters, move-only handle
ownership) and of the schema migration runner built on top of it.

The underlying database engine is an external collaborator; it is modelled
by explicit engine values (SqlValue), explicit step outcomes (StepRes) and
an explicit committed-state plus open-transaction connection state.
-/

namespace Sqlite3Wrapper

/-- Engine-level SQL value stored in a parameter slot or a result column. -/
inductive SqlValue where
  | null
  | int (i : Int)
  | text (s : String)
  deriving DecidableEq

/-- Model of sqlite3_column_int restricted to the values the wrapper stores:
a NULL column reads as 0 through the native NULL-as-zero conversion. -/
def sqlite3_column_int : SqlValue → Int
  | SqlValue.null => 0
  | SqlValue.int i => i
  | SqlValue.text _ => 0

/-- Registered operations of one supported value type T in the type_traits
registry: the engine value its bind writes, the column read into an out
argument, and the value produced by value-initialisation (emplace). -/
structure TypeOps (τ : Type) where
  bindVal : τ → SqlValue
  columnRead : SqlValue → τ → τ
  defaultVal : τ

/-- Model of type_traits over std optional, bind member
(sqlite3_wrapper.h lines 356 to 366): a present value delegates to the bind
of T, an absent value binds SQL NULL. -/
def optional_bind {τ : Type} (ops : TypeOps τ) : Option τ → SqlValue
  | some v => ops.bindVal v
  | none => SqlValue.null

/-- Model of type_traits over std optional, column member
(sqlite3_wrapper.h lines 368 to 378): a non NULL column is read into a
freshly emplaced value, a NULL column yields the absent value. -/
def optional_column {τ : Type} (ops : TypeOps τ) (v : SqlValue) (arg : Option τ) : Option τ :=
  if v ≠ SqlValue.null then some (ops.columnRead v ops.defaultVal)
  else none

/-- Model of type_traits over boost optional, bind member
(part_001 lines 390 to 400): identical to the std variant. -/
def boost_optional_bind {τ : Type} (ops : TypeOps τ) : Option τ → SqlValue
  | some v => ops.bindVal v
  | none => SqlValue.null

/-- Model of type_traits over boost optional, column member
(part_001 lines 402 to 412). A NULL column assigns boost none. A non NULL
column writes through the dereferenced optional without engaging it first;
dereferencing a disengaged optional is undefined behaviour, modelled as the
outer none result. -/
def boost_optional_column {τ : Type} (ops : TypeOps τ) (v : SqlValue) (arg : Option τ) :
    Option (Option τ) :=
  if v = SqlValue.null then some none
  else
    match arg with
    | some x => some (some (ops.columnRead v x))
    | none => none

/-- Outcome of one sqlite3_step call: a row, completion, or an error. -/
inductive StepRes where
  | row
  | done
  | err
  deriving DecidableEq

/-- Engine responses consumed by one execute call on a statement: the status
of sqlite3_reset, the status of each positional bind in order, and the
outcome of the single sqlite3_step. -/
structure ExecEngine where
  resetOk : Bool
  bindResults : List Bool
  stepRes : StepRes
  deriving DecidableEq

/-- Model of the variadic bind recursion (sqlite3_wrapper.h lines 136 to
151): each bind is checked in positional order and the first non success
status throws; no statement state changes on the way. The whole chain
succeeds exactly when every bind does. -/
def bindAll : List Bool → Bool
  | [] => true
  | b :: rest => b && bindAll rest

/-- Model of statement step (sqlite3_wrapper.h lines 126 to 134). The first
component is whether an exception was thrown; the second is the resulting
fetch readiness flag. On an error result the throw happens before the flag
assignment, so the flag keeps its previous value. -/
def stepModel (can_fetch : Bool) (r : StepRes) : Bool × Bool :=
  match r with
  | StepRes.err => (true, can_fetch)
  | StepRes.row => (false, true)
  | StepRes.done => (false, false)

/-- Model of statement execute (sqlite3_wrapper.h lines 81 to 95): reset,
bind each argument, then step. The first component is whether an exception
was thrown; the second is the fetch readiness flag afterwards. Neither the
reset member nor a failed bind touches the flag. -/
def executeModel (can_fetch : Bool) (e : ExecEngine) : Bool × Bool :=
  if e.resetOk = false then (true, can_fetch)
  else if bindAll e.bindResults = false then (true, can_fetch)
  else stepModel can_fetch e.stepRes

/-- Result of one fetch call: whether it threw, its boolean return value,
the output arguments afterwards, and the fetch readiness flag afterwards. -/
structure FetchOutcome (α : Type) where
  threw : Bool
  result : Bool
  outs : α
  can_fetch : Bool
  deriving DecidableEq

/-- Model of statement fetch (sqlite3_wrapper.h lines 97 to 114). The
outputs are modelled as one value of type α and the column reads of a row
as the function readRow. When the flag is down a step is taken first; a row
is then consumed by reading every column and lowering the flag, otherwise
the outputs are returned untouched. -/
def fetchModel {α : Type} (can_fetch : Bool) (r : StepRes) (outs : α) (readRow : α → α) :
    FetchOutcome α :=
  if can_fetch then { threw := false, result := true, outs := readRow outs, can_fetch := false }
  else
    match r with
    | StepRes.err => { threw := true, result := false, outs := outs, can_fetch := false }
    | StepRes.row => { threw := false, result := true, outs := readRow outs, can_fetch := false }
    | StepRes.done => { threw := false, result := false, outs := outs, can_fetch := false }

/-- Model of the db move constructor (sqlite3_wrapper.h lines 188 to 191):
the fresh object starts with a null handle and swaps with the source. The
result is the pair of the constructed object and the moved-from source. -/
def dbMoveConstruct (src : Option Nat) : Option Nat × Option Nat :=
  (src, none)

/-- Model of the db move assignment (sqlite3_wrapper.h lines 194 to 198):
a plain swap of the two handles. The result pairs the assigned-to object
with the moved-from source. -/
def dbMoveAssign (dst src : Option Nat) : Option Nat × Option Nat :=
  (src, dst)

/-- Model of the db destructor (sqlite3_wrapper.h lines 201 to 207): the
handle is closed exactly when it is non null. The result lists the native
handles released. -/
def dbDestructorReleases (h : Option Nat) : List Nat :=
  h.toList

/-- Observable fields of one statement object: the native statement handle
and the fetch readiness flag. -/
structure StmtObj where
  stmtHandle : Option Nat
  can_fetch : Bool
  deriving DecidableEq

/-- Model of the statement move constructor (sqlite3_wrapper.h lines 58 to
62): the fresh object starts with a null handle and a lowered flag and swaps
both fields with the source. -/
def statementMoveConstruct (src : StmtObj) : StmtObj × StmtObj :=
  (src, { stmtHandle := none, can_fetch := false })

/-- Model of the statement move assignment (sqlite3_wrapper.h lines 65 to
70): a plain swap of both fields. -/
def statementMoveAssign (dst src : StmtObj) : StmtObj × StmtObj :=
  (src, dst)

/-- Model of the statement destructor (sqlite3_wrapper.h lines 73 to 79):
the handle is finalized exactly when it is non null. -/
def statementDestructorReleases (s : StmtObj) : List Nat :=
  s.stmtHandle.toList

/-- One persisted row of the VersionInfo ledger table: the Version column
and the AppliedOn column, where none models SQL NULL. The Description
column is never written by the runner and is omitted. -/
structure LedgerRow where
  Version : Int
  AppliedOn : Option Nat
  deriving DecidableEq

/-- Observable database state for the migration claims: whether the
VersionInfo table exists, its rows in insertion order, and the schema
objects created so far, recorded as the list of executed migration SQL
bodies in execution order. -/
structure DBState where
  versionInfoExists : Bool
  ledger : List LedgerRow
  schema : List String
  deriving DecidableEq

/-- Uniform failure representation raised by the wrapper: the engine
diagnostic message. -/
structure EngineError where
  message : String
  deriving DecidableEq

/-- Model of the class db as a connection: the committed (durable) database
state, and the working state of the open transaction when one is active.
Outside a transaction every statement autocommits. -/
structure db where
  committed : DBState
  txn : Option DBState
  deriving DecidableEq

/-- State visible to reads on this connection: the open transaction state
when present, the committed state otherwise. -/
def db.current (c : db) : DBState :=
  c.txn.getD c.committed

/-- Apply one successful state-changing statement on the connection: inside
a transaction it updates the working state, outside it autocommits. -/
def db.applyUpdate (c : db) (f : DBState → DBState) : db :=
  match c.txn with
  | some s => { c with txn := some (f s) }
  | none => { c with committed := f c.committed }

/-- Model of db begin (sqlite3_wrapper.h lines 214 to 229): issues BEGIN
TRANSACTION, which the engine rejects when a transaction is already open;
otherwise the working state starts from the committed state. -/
def db.begin (c : db) : Except EngineError db :=
  match c.txn with
  | some _ => Except.error { message := "cannot start a transaction within a transaction" }
  | none => Except.ok { c with txn := some c.committed }

/-- Model of db commit (sqlite3_wrapper.h lines 231 to 234): issues COMMIT
TRANSACTION, making the working state durable; the engine rejects it when
no transaction is open. -/
def db.commit (c : db) : Except EngineError db :=
  match c.txn with
  | some s => Except.ok { committed := s, txn := none }
  | none => Except.error { message := "cannot commit - no transaction is active" }

/-- Model of db rollback (sqlite3_wrapper.h lines 236 to 239): issues
ROLLBACK TRANSACTION, discarding the working state; the engine rejects it
when no transaction is open. -/
def db.rollback (c : db) : Except EngineError db :=
  match c.txn with
  | some _ => Except.ok { c with txn := none }
  | none => Except.error { message := "cannot rollback - no transaction is active" }

/-- One caller-supplied migration: its SQL body, whether the engine executes
that body successfully against the current state, and whether the ledger
INSERT issued right after it succeeds. The two flags are the engine oracle
for the two fallible db execute calls of the loop body. -/
structure Migration where
  sql : String
  ok : Bool
  insertOk : Bool
  deriving DecidableEq

/-- Model of the db execute call on one migration body (part_000 line 20):
on success the schema change of the body is recorded, on failure an
exception carrying the engine message propagates. -/
def execMigrationBody (c : db) (m : Migration) : Except EngineError db :=
  if m.ok then Except.ok (c.applyUpdate fun s => { s with schema := s.schema ++ [m.sql] })
  else Except.error { message := m.sql }

/-- Model of the ledger INSERT (part_000 lines 21 to 24): INSERT INTO
VersionInfo of the 1-based version number together with the current
timestamp, which is always non NULL. -/
def insertVersionRow (now : Nat) (version : Int) (m : Migration) (c : db) :
    Except EngineError db :=
  if m.insertOk then
    Except.ok (c.applyUpdate fun s =>
      { s with ledger := s.ledger ++ [{ Version := version, AppliedOn := some now }] })
  else Except.error { message := "INSERT INTO VersionInfo failed" }

/-- Model of the application loop of apply_migrations (part_000 lines 18 to
25): iterate over the remaining migrations, executing each body and then
inserting its ledger row, where idx is the 0-based position of the current
migration in the full list. An exception leaves the connection exactly as
it was when the failing call threw. -/
def applyFrom (now : Nat) : List Migration → Nat → db → db × Option EngineError
  | [], _, c => (c, none)
  | m :: rest, idx, c =>
    match execMigrationBody c m with
    | Except.error e => (c, some e)
    | Except.ok c1 =>
      match insertVersionRow now ((idx : Int) + 1) m c1 with
      | Except.error e => (c1, some e)
      | Except.ok c2 => applyFrom now rest (idx + 1) c2

/-- Model of create_version_info_table (part_000 lines 31 to 41): CREATE
TABLE IF NOT EXISTS VersionInfo, an idempotent statement that always
succeeds. -/
def create_version_info_table (c : db) : db :=
  c.applyUpdate fun s => { s with versionInfoExists := true }

/-- Model of the SQL aggregate MAX over the Version column: NULL on an
empty table, the maximum version otherwise. -/
def maxVersion : List LedgerRow → SqlValue
  | [] => SqlValue.null
  | r :: rs => SqlValue.int (rs.foldl (fun a x => max a x.Version) r.Version)

/-- Result rows of the version query SELECT MAX of Version FROM VersionInfo:
an aggregate query always yields exactly one row. -/
def versionQueryRows (s : DBState) : List (List SqlValue) :=
  [[maxVersion s.ledger]]

/-- Model of get_last_applied_version (part_000 lines 43 to 54): run the
version query, default-initialise the output to 0, and fetch: when a row is
available its single column is read through sqlite3_column_int. -/
def get_last_applied_version (c : db) : Int :=
  match versionQueryRows (db.current c) with
  | [] => 0
  | row :: _ => sqlite3_column_int (row.headD SqlValue.null)

/-- Model of migrations apply_migrations (part_000 lines 10 to 28): ensure
the ledger table, read the last applied version, and when the supplied list
is longer, apply the remaining migrations inside one transaction. On an
exception the pair carries the connection state at the throw together with
the propagated error; no rollback is ever issued. -/
def apply_migrations (now : Nat) (c0 : db) (migrations : List Migration) :
    db × Option EngineError :=
  if (migrations.length : Int) > get_last_applied_version (create_version_info_table c0) then
    match db.begin (create_version_info_table c0) with
    | Except.error e => (create_version_info_table c0, some e)
    | Except.ok cb =>
      match applyFrom now
          (migrations.drop (get_last_applied_version (create_version_info_table c0)).toNat)
          (get_last_applied_version (create_version_info_table c0)).toNat cb with
      | (c1, some e) => (c1, some e)
      | (c1, none) =>
        match db.commit c1 with
        | Except.error e => (c1, some e)
        | Except.ok c2 => (c2, none)
  else (create_version_info_table c0, none)

/-- State of a freshly created database file: no VersionInfo table, no
ledger rows, no schema objects. -/
def freshDB : DBState :=
  { versionInfoExists := false, ledger := [], schema := [] }

/-- Connection to a fresh database, outside any transaction. -/
def freshConn : db :=
  { committed := freshDB, txn := none }

/-- Ledger rows the loop inserts when it applies k migrations starting at
0-based position start: versions start+1 up to start+k, each stamped with
the current timestamp. -/
def runLedger (now start : Nat) : Nat → List LedgerRow
  | 0 => []
  | k + 1 => { Version := (start : Int) + 1, AppliedOn := some now } :: runLedger now (start + 1) k

/-- Connection state after a successful fresh run: table present, ledger
rows 1 up to n stamped with now, schema the executed bodies, outside any
transaction. -/
def afterFreshRun (now : Nat) (migs : List Migration) : db :=
  { committed := { versionInfoExists := true, ledger := runLedger now 0 migs.length,
                   schema := migs.map Migration.sql },
    txn := none }

/-- Sample migration used by concrete witness instances: body a, succeeds. -/
def migA : Migration :=
  { sql := "a", ok := true, insertOk := true }

/-- Sample migration used by concrete witness instances: body b, succeeds. -/
def migB : Migration :=
  { sql := "b", ok := true, insertOk := true }

/-- Sample migration used by concrete witness instances: body c, succeeds. -/
def migC : Migration :=
  { sql := "c", ok := true, insertOk := true }

/-- Sample migration whose body fails to execute, used by concrete witness
instances for the failure claims. -/
def migBad : Migration :=
  { sql := "bad", ok := false, insertOk := true }

/-- Sample migration whose body succeeds but whose ledger INSERT fails,
used by concrete witness instances for the failure claims. -/
def migInsFail : Migration :=
  { sql := "d", ok := true, insertOk := false }

/-- Sample connection whose VersionInfo table exists but holds no rows,
used by concrete witness instances. -/
def emptyLedgerConn : db :=
  { committed := { versionInfoExists := true, ledger := [], schema := ["t"] },
    txn := none }

/-- Every row inserted by the application loop carries the non NULL
timestamp of the run. -/
theorem runLedger_appliedOn (now : Nat) :
    ∀ (k start : Nat) (r : LedgerRow), r ∈ runLedger now start k → r.AppliedOn = some now := by
  intro k
  induction k with
  | zero =>
    intro start r hr
    exact absurd hr (by simp [runLedger])
  | succ n ih =>
    intro start r hr
    simp only [runLedger, List.mem_cons] at hr
    rcases hr with h | h
    · rw [h]
    · exact ih (start + 1) r h

/-- The versions of the rows inserted by the application loop are the
1-based positions of the migrations they record, in list order. -/
theorem runLedger_map_version (now : Nat) :
    ∀ (k start : Nat), (runLedger now start k).map LedgerRow.Version =
      (List.range k).map (fun i => ((start + i : Nat) : Int) + 1) := by
  intro k
  induction k with
  | zero => intro start; simp [runLedger]
  | succ n ih =>
    intro start
    rw [List.range_succ_eq_map]
    simp only [runLedger, List.map_cons, List.map_map]
    rw [ih (start + 1)]
    congr 1
    exact List.map_congr_left fun i _ => by simp only [Function.comp_apply]; omega

/-- Folding max over a block of loop-inserted rows starting at position
start yields the last inserted version when the block is non empty. -/
theorem foldl_max_runLedger (now : Nat) :
    ∀ (k start : Nat) (a : Int),
      List.foldl (fun acc r => max acc r.Version) a (runLedger now start k) =
        if k = 0 then a else max a ((start : Int) + (k : Int)) := by
  intro k
  induction k with
  | zero => intro start a; simp [runLedger]
  | succ n ih =>
    intro start a
    simp only [runLedger, List.foldl_cons]
    rw [ih (start + 1)]
    rw [if_neg (Nat.succ_ne_zero n)]
    by_cases hn : n = 0
    · rw [if_pos hn]; subst hn; omega
    · rw [if_neg hn]; omega

/-- The maximum version over a fresh run of k migrations is NULL when k is
zero and k itself otherwise. -/
theorem maxVersion_runLedger (now k : Nat) :
    maxVersion (runLedger now 0 k) =
      if k = 0 then SqlValue.null else SqlValue.int (k : Int) := by
  cases k with
  | zero => simp [runLedger, maxVersion]
  | succ n =>
    rw [if_neg (Nat.succ_ne_zero n)]
    simp only [runLedger, maxVersion]
    rw [foldl_max_runLedger]
    congr 1
    by_cases hn : n = 0
    · rw [if_pos hn]; subst hn; omega
    · rw [if_neg hn]; omega

/-- The maximum version over a fresh run of n migrations followed by a
later run of m further migrations is NULL when both are empty and n plus m
otherwise. -/
theorem maxVersion_runLedger_append (now now2 n m : Nat) :
    maxVersion (runLedger now 0 n ++ runLedger now2 n m) =
      if n + m = 0 then SqlValue.null else SqlValue.int ((n + m : Nat) : Int) := by
  cases n with
  | zero =>
    simp only [runLedger, List.nil_append, Nat.zero_add]
    exact maxVersion_runLedger now2 m
  | succ j =>
    rw [if_neg (by omega)]
    simp only [runLedger, List.cons_append, maxVersion]
    rw [List.foldl_append, foldl_max_runLedger, foldl_max_runLedger]
    congr 1
    by_cases hm : m = 0
    · rw [if_pos hm]
      by_cases hj : j = 0
      · rw [if_pos hj]; subst hm; subst hj; omega
      · rw [if_neg hj]; subst hm; omega
    · rw [if_neg hm]
      by_cases hj : j = 0
      · rw [if_pos hj]; subst hj; omega
      · rw [if_neg hj]; omega

/-- Inside an open transaction, a loop over migrations that all succeed
appends every body to the schema and one ledger row per body, in list
order, and raises nothing. -/
theorem applyFrom_ok (now : Nat) :
    ∀ (migs : List Migration) (idx : Nat) (d s : DBState),
      (∀ m ∈ migs, m.ok = true ∧ m.insertOk = true) →
      applyFrom now migs idx { committed := d, txn := some s } =
        ({ committed := d,
           txn := some { s with schema := s.schema ++ migs.map Migration.sql,
                                ledger := s.ledger ++ runLedger now idx migs.length } }, none) := by
  intro migs
  induction migs with
  | nil =>
    intro idx d s h
    simp [applyFrom, runLedger]
  | cons m rest ih =>
    intro idx d s h
    have hm := h m (List.mem_cons_self m rest)
    simp only [applyFrom, execMigrationBody, hm.1, if_true, db.applyUpdate, insertVersionRow,
      hm.2]
    rw [ih (idx + 1) d _ (fun m2 hm2 => h m2 (List.mem_cons_of_mem m hm2))]
    simp [runLedger, List.append_assoc]

/-- Inside an open transaction, a loop whose first failing body sits after
an all-successful block throws the body error and leaves the connection
holding exactly the partial effects of that block: the transaction is still
open, nothing was rolled back. -/
theorem applyFrom_fail (now : Nat) :
    ∀ (pre : List Migration) (bad : Migration) (post : List Migration) (idx : Nat)
      (d s : DBState),
      (∀ m ∈ pre, m.ok = true ∧ m.insertOk = true) → bad.ok = false →
      applyFrom now (pre ++ bad :: post) idx { committed := d, txn := some s } =
        ({ committed := d,
           txn := some { s with schema := s.schema ++ pre.map Migration.sql,
                                ledger := s.ledger ++ runLedger now idx pre.length } },
         some { message := bad.sql }) := by
  intro pre
  induction pre with
  | nil =>
    intro bad post idx d s hpre hbad
    simp [applyFrom, execMigrationBody, hbad, runLedger]
  | cons m rest ih =>
    intro bad post idx d s hpre hbad
    have hm := hpre m (List.mem_cons_self m rest)
    simp only [List.cons_append, applyFrom, execMigrationBody, hm.1, if_true, db.applyUpdate,
      insertVersionRow, hm.2, List.append_eq]
    rw [ih bad post (idx + 1) d _ (fun m2 hm2 => hpre m2 (List.mem_cons_of_mem m hm2)) hbad]
    simp [runLedger, List.append_assoc]

/-- Inside an open transaction, a loop whose first failing step sits after
an all-successful block throws from that step, whichever of the two
fallible calls it is: a failing migration body throws before any of its
effects, while a failing ledger INSERT throws after the schema effect of
its body. Either way the connection is left exactly as it was at the
throw: transaction open, holding the effects of the block, plus the body
effect of the failing migration when the INSERT is what failed. -/
theorem applyFrom_fail_any (now : Nat) :
    ∀ (pre : List Migration) (bad : Migration) (post : List Migration) (idx : Nat)
      (d s : DBState),
      (∀ m ∈ pre, m.ok = true ∧ m.insertOk = true) →
      (bad.ok = false ∨ bad.insertOk = false) →
      applyFrom now (pre ++ bad :: post) idx { committed := d, txn := some s } =
        ({ committed := d,
           txn := some { s with
             schema := s.schema ++ pre.map Migration.sql ++
               (if bad.ok = true then [bad.sql] else []),
             ledger := s.ledger ++ runLedger now idx pre.length } },
         some (if bad.ok = true then { message := "INSERT INTO VersionInfo failed" }
               else { message := bad.sql })) := by
  intro pre
  induction pre with
  | nil =>
    intro bad post idx d s hpre hbad
    by_cases hb : bad.ok = true
    · have hins : bad.insertOk = false := hbad.resolve_left (by simp [hb])
      simp [applyFrom, execMigrationBody, hb, insertVersionRow, hins, db.applyUpdate, runLedger]
    · have hb0 : bad.ok = false := by simpa using hb
      simp [applyFrom, execMigrationBody, hb0, hb, runLedger]
  | cons m rest ih =>
    intro bad post idx d s hpre hbad
    have hm := hpre m (List.mem_cons_self m rest)
    simp only [List.cons_append, applyFrom, execMigrationBody, hm.1, if_true, db.applyUpdate,
      insertVersionRow, hm.2, List.append_eq]
    rw [ih bad post (idx + 1) d _ (fun m2 hm2 => hpre m2 (List.mem_cons_of_mem m hm2)) hbad]
    simp [runLedger, List.append_assoc]

/-- Creating the ledger table never changes the ledger contents, so the
version query reads the same value before and after. -/
theorem glav_create (c : db) :
    get_last_applied_version (create_version_info_table c) = get_last_applied_version c := by
  obtain ⟨comm, txn⟩ := c
  cases txn <;> rfl

/-- A run whose supplied list is not longer than the last applied version
only ensures the ledger table and applies nothing. -/
theorem apply_migrations_noop (now : Nat) (migs : List Migration) (c : db)
    (hle : (migs.length : Int) ≤ get_last_applied_version c) :
    apply_migrations now c migs = (create_version_info_table c, none) := by
  unfold apply_migrations
  rw [glav_create, if_neg (not_lt.mpr hle)]

/-- A run on a connection outside a transaction whose last applied version
k is smaller than the supplied count applies exactly the migrations from
0-based position k on, inside one committed transaction: the committed
schema gains those bodies in order and the committed ledger gains rows
k+1 up to the list length, stamped with the run timestamp. -/
theorem apply_migrations_runs (now : Nat) (migs : List Migration) (c : db) (k : Nat)
    (htxn : c.txn = none)
    (hk : get_last_applied_version c = (k : Int))
    (hlt : k < migs.length)
    (hok : ∀ m ∈ migs.drop k, m.ok = true ∧ m.insertOk = true) :
    apply_migrations now c migs =
      ({ committed := { versionInfoExists := true,
                        ledger := c.committed.ledger ++ runLedger now k (migs.length - k),
                        schema := c.committed.schema ++ (migs.drop k).map Migration.sql },
         txn := none }, none) := by
  obtain ⟨comm, txn⟩ := c
  subst htxn
  have hglav : get_last_applied_version
      (create_version_info_table { committed := comm, txn := none }) = (k : Int) := by
    rw [glav_create]; exact hk
  unfold apply_migrations
  rw [hglav]
  rw [if_pos (by exact_mod_cast hlt)]
  simp only [create_version_info_table, db.applyUpdate, db.begin, Int.toNat_natCast]
  rw [applyFrom_ok now (migs.drop k) k _ _ hok]
  simp only [db.commit, List.length_drop]

/-- A successful run on a fresh database applies every supplied migration:
the committed schema is the list of bodies in order and the committed
ledger is the full block of rows with versions 1 up to the count. -/
theorem apply_migrations_fresh_ok (now : Nat) (migs : List Migration)
    (hok : ∀ m ∈ migs, m.ok = true ∧ m.insertOk = true) :
    apply_migrations now freshConn migs =
      ({ committed := { versionInfoExists := true, ledger := runLedger now 0 migs.length,
                        schema := migs.map Migration.sql }, txn := none }, none) := by
  cases migs with
  | nil => rfl
  | cons m rest =>
    rw [apply_migrations_runs now (m :: rest) freshConn 0 rfl rfl (Nat.succ_pos rest.length)
      (by simpa using hok)]
    simp [freshConn, freshDB]

/-- A run on a fresh database whose list is an all-successful block, then a
failing body, then anything, throws the body error; the committed state
keeps only the ledger table while the still-open transaction holds the
partial effects of the block. -/
theorem apply_migrations_fresh_fail (now : Nat) (pre : List Migration) (bad : Migration)
    (post : List Migration)
    (hpre : ∀ m ∈ pre, m.ok = true ∧ m.insertOk = true) (hbad : bad.ok = false) :
    apply_migrations now freshConn (pre ++ bad :: post) =
      ({ committed := { versionInfoExists := true, ledger := [], schema := [] },
         txn := some { versionInfoExists := true, ledger := runLedger now 0 pre.length,
                       schema := pre.map Migration.sql } },
       some { message := bad.sql }) := by
  unfold apply_migrations
  have hglav : get_last_applied_version (create_version_info_table freshConn) = ((0 : Nat) : Int) :=
    rfl
  rw [hglav]
  rw [if_pos (by simp [List.length_append]; omega)]
  simp only [create_version_info_table, db.applyUpdate, freshConn, freshDB, db.begin,
    Int.toNat_natCast, List.drop_zero]
  rw [applyFrom_fail now pre bad post 0 _ _ hpre hbad]
  rfl

/-- C1: applying n migrations to a fresh database creates the VersionInfo
ledger table, executes every body strictly in list order inside a single
committed transaction, and records ledger rows whose versions are the
1-based list positions 1 up to n in that order, each with a non NULL
AppliedOn timestamp. -/
theorem apply_migrations_fresh_records_versions (now : Nat) (migs : List Migration)
    (hok : ∀ m ∈ migs, m.ok = true ∧ m.insertOk = true) :
    (apply_migrations now freshConn migs).2 = none ∧
    (apply_migrations now freshConn migs).1.txn = none ∧
    (apply_migrations now freshConn migs).1.committed.versionInfoExists = true ∧
    (apply_migrations now freshConn migs).1.committed.schema = migs.map Migration.sql ∧
    (apply_migrations now freshConn migs).1.committed.ledger.map LedgerRow.Version =
      (List.range migs.length).map (fun i : Nat => (i : Int) + 1) ∧
    ∀ r ∈ (apply_migrations now freshConn migs).1.committed.ledger, r.AppliedOn = some now := by
  rw [apply_migrations_fresh_ok now migs hok]
  refine ⟨rfl, rfl, rfl, rfl, ?_, ?_⟩
  · rw [runLedger_map_version]
    exact List.map_congr_left fun i _ => by simp
  · exact fun r hr => runLedger_appliedOn now migs.length 0 r hr

theorem apply_migrations_fresh_records_versions_witness :
    (∀ m ∈ [migA, migB, migC], m.ok = true ∧ m.insertOk = true) ∧
    ((apply_migrations 42 freshConn [migA, migB, migC]).2 = none ∧
     (apply_migrations 42 freshConn [migA, migB, migC]).1.txn = none ∧
     (apply_migrations 42 freshConn [migA, migB, migC]).1.committed.versionInfoExists = true ∧
     (apply_migrations 42 freshConn [migA, migB, migC]).1.committed.schema =
       [migA, migB, migC].map Migration.sql ∧
     (apply_migrations 42 freshConn [migA, migB, migC]).1.committed.ledger.map
         LedgerRow.Version =
       (List.range [migA, migB, migC].length).map (fun i : Nat => (i : Int) + 1) ∧
     ∀ r ∈ (apply_migrations 42 freshConn [migA, migB, migC]).1.committed.ledger,
       r.AppliedOn = some 42) :=
  ⟨by decide, apply_migrations_fresh_records_versions 42 _ (by decide)⟩

/-- C2: when a migration body fails, apply_migrations raises the engine
error and the durable (committed) state keeps nothing of the run: on a
fresh database the committed ledger stays empty, the committed schema
stays empty, and the version query over the committed ledger still yields
0, because the transaction was never committed. -/
theorem apply_migrations_failure_durable_state (now : Nat) (pre : List Migration)
    (bad : Migration) (post : List Migration)
    (hpre : ∀ m ∈ pre, m.ok = true ∧ m.insertOk = true) (hbad : bad.ok = false) :
    ((apply_migrations now freshConn (pre ++ bad :: post)).2).isSome = true ∧
    (apply_migrations now freshConn (pre ++ bad :: post)).1.committed.ledger = [] ∧
    (apply_migrations now freshConn (pre ++ bad :: post)).1.committed.schema = [] ∧
    sqlite3_column_int
      (maxVersion (apply_migrations now freshConn (pre ++ bad :: post)).1.committed.ledger)
      = 0 := by
  rw [apply_migrations_fresh_fail now pre bad post hpre hbad]
  exact ⟨rfl, rfl, rfl, rfl⟩

theorem apply_migrations_failure_durable_state_witness :
    (∀ m ∈ [migA], m.ok = true ∧ m.insertOk = true) ∧
    migBad.ok = false ∧
    (((apply_migrations 7 freshConn ([migA] ++ migBad :: [migC])).2).isSome = true ∧
     (apply_migrations 7 freshConn ([migA] ++ migBad :: [migC])).1.committed.ledger = [] ∧
     (apply_migrations 7 freshConn ([migA] ++ migBad :: [migC])).1.committed.schema = [] ∧
     sqlite3_column_int (maxVersion
       (apply_migrations 7 freshConn ([migA] ++ migBad :: [migC])).1.committed.ledger) = 0) :=
  ⟨by decide, by decide,
    apply_migrations_failure_durable_state 7 _ _ _ (by decide) (by decide)⟩

/-- C9: apply_migrations never issues a rollback: on any connection
outside a transaction, holding an already recorded prefix kept, when the
first failing step of the run is a migration body or the ledger INSERT
following one, the error propagates while the transaction is still open on
the connection, its working state holds the uncommitted partial effects
(the successful earlier migrations of the run and, when the INSERT is what
failed, the body effect of the failing migration), same-connection reads
observe that partial state, and an explicit rollback by the caller is what
discards it. -/
theorem apply_migrations_failure_open_txn (now : Nat) (c : db) (kept pre : List Migration)
    (bad : Migration) (post : List Migration)
    (htxn : c.txn = none)
    (hk : get_last_applied_version c = ((kept.length : Nat) : Int))
    (hpre : ∀ m ∈ pre, m.ok = true ∧ m.insertOk = true)
    (hbad : bad.ok = false ∨ bad.insertOk = false) :
    ((apply_migrations now c (kept ++ (pre ++ bad :: post))).2).isSome = true ∧
    (apply_migrations now c (kept ++ (pre ++ bad :: post))).1.txn =
      some { versionInfoExists := true,
             ledger := c.committed.ledger ++ runLedger now kept.length pre.length,
             schema := c.committed.schema ++ pre.map Migration.sql ++
               (if bad.ok = true then [bad.sql] else []) } ∧
    db.current (apply_migrations now c (kept ++ (pre ++ bad :: post))).1 =
      { versionInfoExists := true,
        ledger := c.committed.ledger ++ runLedger now kept.length pre.length,
        schema := c.committed.schema ++ pre.map Migration.sql ++
          (if bad.ok = true then [bad.sql] else []) } ∧
    db.rollback (apply_migrations now c (kept ++ (pre ++ bad :: post))).1 =
      Except.ok { committed := { versionInfoExists := true, ledger := c.committed.ledger,
                                 schema := c.committed.schema }, txn := none } := by
  obtain ⟨comm, txn⟩ := c
  subst htxn
  have hglav : get_last_applied_version
      (create_version_info_table { committed := comm, txn := none }) =
      ((kept.length : Nat) : Int) := by
    rw [glav_create]; exact hk
  have hmain : apply_migrations now { committed := comm, txn := none }
      (kept ++ (pre ++ bad :: post)) =
      ({ committed := { versionInfoExists := true, ledger := comm.ledger,
                        schema := comm.schema },
         txn := some { versionInfoExists := true,
                       ledger := comm.ledger ++ runLedger now kept.length pre.length,
                       schema := comm.schema ++ pre.map Migration.sql ++
                         (if bad.ok = true then [bad.sql] else []) } },
       some (if bad.ok = true then { message := "INSERT INTO VersionInfo failed" }
             else { message := bad.sql })) := by
    unfold apply_migrations
    rw [hglav]
    rw [if_pos (by simp only [List.length_append, List.length_cons]; push_cast; omega)]
    simp only [create_version_info_table, db.applyUpdate, db.begin, Int.toNat_natCast]
    rw [List.drop_left]
    rw [applyFrom_fail_any now pre bad post kept.length _ _ hpre hbad]
  rw [hmain]
  exact ⟨rfl, rfl, rfl, rfl⟩

theorem apply_migrations_failure_open_txn_witness :
    (freshConn.txn = none ∧
     get_last_applied_version freshConn = ((([] : List Migration).length : Nat) : Int) ∧
     (∀ m ∈ [migA], m.ok = true ∧ m.insertOk = true) ∧
     (migInsFail.ok = false ∨ migInsFail.insertOk = false)) ∧
    (((apply_migrations 9 freshConn
        (([] : List Migration) ++ ([migA] ++ migInsFail :: []))).2).isSome = true ∧
     (apply_migrations 9 freshConn
        (([] : List Migration) ++ ([migA] ++ migInsFail :: []))).1.txn =
       some { versionInfoExists := true,
              ledger := freshConn.committed.ledger ++
                runLedger 9 ([] : List Migration).length [migA].length,
              schema := freshConn.committed.schema ++ [migA].map Migration.sql ++
                (if migInsFail.ok = true then [migInsFail.sql] else []) } ∧
     db.current (apply_migrations 9 freshConn
        (([] : List Migration) ++ ([migA] ++ migInsFail :: []))).1 =
       { versionInfoExists := true,
         ledger := freshConn.committed.ledger ++
           runLedger 9 ([] : List Migration).length [migA].length,
         schema := freshConn.committed.schema ++ [migA].map Migration.sql ++
           (if migInsFail.ok = true then [migInsFail.sql] else []) } ∧
     db.rollback (apply_migrations 9 freshConn
        (([] : List Migration) ++ ([migA] ++ migInsFail :: []))).1 =
       Except.ok { committed := { versionInfoExists := true,
                                  ledger := freshConn.committed.ledger,
                                  schema := freshConn.committed.schema }, txn := none }) :=
  ⟨⟨by decide, by decide, by decide, by decide⟩,
    apply_migrations_failure_open_txn 9 freshConn [] [migA] migInsFail []
      (by decide) (by decide) (by decide) (by decide)⟩

/-- The version query on the state after a successful fresh run yields the
count of migrations applied. -/
theorem glav_afterFreshRun (now : Nat) (migs : List Migration) :
    get_last_applied_version (afterFreshRun now migs) = ((migs.length : Nat) : Int) := by
  show sqlite3_column_int (maxVersion (runLedger now 0 migs.length)) = _
  rw [maxVersion_runLedger]
  by_cases h0 : migs.length = 0
  · rw [if_pos h0, h0]; rfl
  · rw [if_neg h0]; rfl

/-- C3: after a successful run of migs1 on a fresh database, re-running
with any list no longer than migs1 ensures the table and otherwise does
nothing at all, and re-running with the prefix-extended list migs1 appended
with migs2 succeeds, executes exactly the bodies of migs2 (the schema trace
gains precisely those, so nothing recorded is re-executed), and advances
the ledger maximum to the new list length. -/
theorem apply_migrations_rerun_and_extend (now now2 : Nat)
    (migs1 migs2 migs3 : List Migration) (c1 : db)
    (h1 : ∀ m ∈ migs1, m.ok = true ∧ m.insertOk = true)
    (h2 : ∀ m ∈ migs2, m.ok = true ∧ m.insertOk = true)
    (h3 : migs3.length ≤ migs1.length)
    (hrun : apply_migrations now freshConn migs1 = (c1, none)) :
    apply_migrations now2 c1 migs3 = (c1, none) ∧
    (apply_migrations now2 c1 (migs1 ++ migs2)).2 = none ∧
    (apply_migrations now2 c1 (migs1 ++ migs2)).1.committed.schema =
      c1.committed.schema ++ migs2.map Migration.sql ∧
    get_last_applied_version (apply_migrations now2 c1 (migs1 ++ migs2)).1 =
      ((migs1.length + migs2.length : Nat) : Int) := by
  have hc1 : c1 = afterFreshRun now migs1 := by
    have h := apply_migrations_fresh_ok now migs1 h1
    rw [hrun] at h
    exact congrArg Prod.fst h
  subst hc1
  have hglav := glav_afterFreshRun now migs1
  have hrun2 : ∀ m2 rest2, migs2 = m2 :: rest2 →
      apply_migrations now2 (afterFreshRun now migs1) (migs1 ++ migs2) =
        ({ committed := { versionInfoExists := true,
                          ledger := runLedger now 0 migs1.length ++
                            runLedger now2 migs1.length migs2.length,
                          schema := migs1.map Migration.sql ++ migs2.map Migration.sql },
           txn := none }, none) := by
    intro m2 rest2 hm2
    rw [apply_migrations_runs now2 (migs1 ++ migs2) _ migs1.length rfl hglav
      (by rw [List.length_append, hm2]; simp)
      (by rw [List.drop_left]; exact h2)]
    rw [List.drop_left]
    rw [List.length_append, Nat.add_sub_cancel_left]
    rfl
  refine ⟨?_, ?_, ?_, ?_⟩
  · rw [apply_migrations_noop now2 migs3 _ (by rw [hglav]; exact_mod_cast h3)]
    rfl
  · rcases migs2 with _ | ⟨m2, rest2⟩
    · rw [List.append_nil,
        apply_migrations_noop now2 migs1 _ (by rw [hglav])]
    · rw [hrun2 m2 rest2 rfl]
  · rcases migs2 with _ | ⟨m2, rest2⟩
    · rw [List.append_nil,
        apply_migrations_noop now2 migs1 _ (by rw [hglav])]
      simp [create_version_info_table, db.applyUpdate, afterFreshRun]
    · rw [hrun2 m2 rest2 rfl]
      rfl
  · rcases migs2 with _ | ⟨m2, rest2⟩
    · rw [List.append_nil,
        apply_migrations_noop now2 migs1 _ (by rw [hglav])]
      simpa using hglav
    · rw [hrun2 m2 rest2 rfl]
      show sqlite3_column_int (maxVersion (runLedger now 0 migs1.length ++
        runLedger now2 migs1.length (m2 :: rest2).length)) = _
      rw [maxVersion_runLedger_append]
      rw [if_neg (by simp)]
      rfl

theorem apply_migrations_rerun_and_extend_witness :
    (∀ m ∈ [migA, migB], m.ok = true ∧ m.insertOk = true) ∧
    (∀ m ∈ [migC], m.ok = true ∧ m.insertOk = true) ∧
    ([] : List Migration).length ≤ [migA, migB].length ∧
    apply_migrations 5 freshConn [migA, migB] = (afterFreshRun 5 [migA, migB], none) ∧
    (apply_migrations 6 (afterFreshRun 5 [migA, migB]) ([] : List Migration) =
        (afterFreshRun 5 [migA, migB], none) ∧
     (apply_migrations 6 (afterFreshRun 5 [migA, migB]) ([migA, migB] ++ [migC])).2 = none ∧
     (apply_migrations 6 (afterFreshRun 5 [migA, migB])
         ([migA, migB] ++ [migC])).1.committed.schema =
       (afterFreshRun 5 [migA, migB]).committed.schema ++ [migC].map Migration.sql ∧
     get_last_applied_version (apply_migrations 6 (afterFreshRun 5 [migA, migB])
         ([migA, migB] ++ [migC])).1 =
       (([migA, migB].length + [migC].length : Nat) : Int)) :=
  ⟨by decide, by decide, by decide, by decide,
    apply_migrations_rerun_and_extend 5 6 _ _ _ _ (by decide) (by decide) (by decide)
      (by decide)⟩

/-- C4 counterexample: a statement whose execute fails on a parameter bind
(reset succeeded, the single bind reported non success, so an EngineError
was raised) is not left Exhausted-equivalent: the next fetch without a
fresh execute steps the engine again, and when that step yields a row the
fetch reports a row and reads columns into the outputs, here overwriting
the output 0 with 7. -/
theorem execute_failure_not_exhausted_cex :
    (executeModel false { resetOk := true, bindResults := [false], stepRes := StepRes.row }).1
      = true ∧
    (fetchModel false StepRes.row (0 : Int) (fun _ => 7)).result = true ∧
    (fetchModel false StepRes.row (0 : Int) (fun _ => 7)).outs = 7 := by
  exact ⟨rfl, rfl, rfl⟩

/-- C4 amended: when reset, any bind, or step reports a non success status
during execute, an EngineError is raised and the fetch readiness flag keeps
the value it had before the call; the statement is safe to retry with a
fresh execute, whose outcome is independent of that flag: a retry whose
reset, binds and step all succeed throws nothing and its flag afterwards
reflects exactly whether the step produced a row. -/
theorem execute_failure_flag_preserved (cf : Bool) (e : ExecEngine)
    (h : (executeModel cf e).1 = true) :
    (executeModel cf e).2 = cf ∧
    ∀ e2 : ExecEngine, e2.resetOk = true → bindAll e2.bindResults = true →
      e2.stepRes ≠ StepRes.err →
      executeModel (executeModel cf e).2 e2 = (false, decide (e2.stepRes = StepRes.row)) := by
  constructor
  · unfold executeModel at h ⊢
    by_cases hr : e.resetOk = false
    · rw [if_pos hr]
    · rw [if_neg hr] at h ⊢
      by_cases hb : bindAll e.bindResults = false
      · rw [if_pos hb]
      · rw [if_neg hb] at h ⊢
        cases hs : e.stepRes
        · rw [hs] at h; exact absurd h (by simp [stepModel])
        · rw [hs] at h; exact absurd h (by simp [stepModel])
        · rfl
  · intro e2 hr2 hb2 hs2
    unfold executeModel
    rw [hr2, hb2]
    cases hs : e2.stepRes
    · simp [stepModel]
    · simp [stepModel]
    · exact absurd hs hs2

theorem execute_failure_flag_preserved_witness :
    (executeModel false { resetOk := true, bindResults := [false], stepRes := StepRes.row }).1
      = true ∧
    (executeModel false { resetOk := true, bindResults := [false], stepRes := StepRes.row }).2
      = false := by
  refine ⟨by decide, ?_⟩
  exact (execute_failure_flag_preserved false
    { resetOk := true, bindResults := [false], stepRes := StepRes.row } (by decide)).1

/-- C5: a statement whose execute succeeded with zero rows leaves the fetch
readiness flag down; a fetch in that state, with the engine reporting
completion again, returns the no-more-rows result and leaves every output
argument untouched; and in general a fetch whose return value is false
never changes the outputs, so output parameters are written only when a row
is available. -/
theorem fetch_no_row_preserves_outputs {α : Type} (outs : α) (readRow : α → α)
    (cf : Bool) (e : ExecEngine)
    (hr : e.resetOk = true) (hb : bindAll e.bindResults = true)
    (hs : e.stepRes = StepRes.done) :
    executeModel cf e = (false, false) ∧
    fetchModel false StepRes.done outs readRow =
      { threw := false, result := false, outs := outs, can_fetch := false } ∧
    ∀ (cf2 : Bool) (r : StepRes), (fetchModel cf2 r outs readRow).result = false →
      (fetchModel cf2 r outs readRow).outs = outs := by
  refine ⟨?_, rfl, ?_⟩
  · unfold executeModel
    rw [hr, hb, hs]
    rfl
  · intro cf2 r hres
    cases cf2
    · cases r
      · exact absurd hres (by simp [fetchModel])
      · rfl
      · rfl
    · exact absurd hres (by simp [fetchModel])

theorem fetch_no_row_preserves_outputs_witness :
    (executeModel false { resetOk := true, bindResults := [], stepRes := StepRes.done } =
      (false, false) ∧
     fetchModel false StepRes.done (5 : Int) (fun x => x + 1) =
      { threw := false, result := false, outs := 5, can_fetch := false } ∧
     (fetchModel false StepRes.err (5 : Int) (fun x => x + 1)).outs = 5) := by
  have h := fetch_no_row_preserves_outputs (5 : Int) (fun x => x + 1) false
    { resetOk := true, bindResults := [], stepRes := StepRes.done } rfl rfl rfl
  exact ⟨h.1, h.2.1, h.2.2 false StepRes.err rfl⟩

/-- C6: for every supported type, binding an absent optional stores SQL
NULL and a present optional delegates to the bind of the wrapped type;
reading a NULL column into an optional output yields the absent value, so
an absent value round-trips through a bound-then-read slot as absent. This
holds for the std optional adapter and for the boost optional adapter. -/
theorem optional_absent_null_roundtrip {τ : Type} (ops : TypeOps τ) :
    optional_bind ops none = SqlValue.null ∧
    (∀ v : τ, optional_bind ops (some v) = ops.bindVal v) ∧
    (∀ arg : Option τ, optional_column ops SqlValue.null arg = none) ∧
    (∀ arg : Option τ, optional_column ops (optional_bind ops none) arg = none) ∧
    boost_optional_bind ops none = SqlValue.null ∧
    (∀ v : τ, boost_optional_bind ops (some v) = ops.bindVal v) ∧
    (∀ arg : Option τ, boost_optional_column ops SqlValue.null arg = some none) ∧
    (∀ arg : Option τ,
      boost_optional_column ops (boost_optional_bind ops none) arg = some none) := by
  refine ⟨rfl, fun v => rfl, fun arg => ?_, fun arg => ?_, rfl, fun v => rfl,
    fun arg => rfl, fun arg => rfl⟩
  · simp [optional_column]
  · simp [optional_bind, optional_column]

/-- C7: when the VersionInfo table exists and holds no rows, the version
query yields a single row whose only column is NULL, the runner reads it
through the NULL-as-zero conversion of sqlite3_column_int into the
default-initialised output, get_last_applied_version returns 0, and a
subsequent successful run therefore applies all supplied migrations with
ledger versions starting at 1. -/
theorem empty_ledger_version_zero (c : db) (now : Nat) (migs : List Migration)
    (htable : c.committed.versionInfoExists = true)
    (htxn : c.txn = none)
    (hled : c.committed.ledger = [])
    (hok : ∀ m ∈ migs, m.ok = true ∧ m.insertOk = true) :
    versionQueryRows (db.current c) = [[SqlValue.null]] ∧
    get_last_applied_version c = sqlite3_column_int SqlValue.null ∧
    get_last_applied_version c = 0 ∧
    (apply_migrations now c migs).1.committed.ledger.map LedgerRow.Version =
      (List.range migs.length).map (fun i : Nat => (i : Int) + 1) := by
  obtain ⟨comm, txn⟩ := c
  subst htxn
  simp only at htable hled
  have hrows : versionQueryRows (db.current { committed := comm, txn := none }) =
      [[SqlValue.null]] := by
    show [[maxVersion comm.ledger]] = [[SqlValue.null]]
    rw [hled]
    rfl
  have hglav0 : get_last_applied_version { committed := comm, txn := none } = ((0 : Nat) : Int) := by
    show sqlite3_column_int (maxVersion comm.ledger) = _
    rw [hled]
    rfl
  refine ⟨hrows, by rw [hglav0]; rfl, by rw [hglav0]; rfl, ?_⟩
  cases migs with
  | nil =>
    rw [apply_migrations_noop now [] _ (by rw [hglav0]; rfl)]
    simp [create_version_info_table, db.applyUpdate, hled]
  | cons m rest =>
    rw [apply_migrations_runs now (m :: rest) _ 0 rfl hglav0 (Nat.succ_pos rest.length)
      (by simpa using hok)]
    simp only [List.drop_zero, Nat.sub_zero, hled, List.nil_append]
    rw [runLedger_map_version]
    exact List.map_congr_left fun i _ => by simp

theorem empty_ledger_version_zero_witness :
    (emptyLedgerConn.committed.versionInfoExists = true ∧
     emptyLedgerConn.txn = none ∧
     emptyLedgerConn.committed.ledger = [] ∧
     (∀ m ∈ [migA], m.ok = true ∧ m.insertOk = true)) ∧
    (versionQueryRows (db.current emptyLedgerConn) = [[SqlValue.null]] ∧
     get_last_applied_version emptyLedgerConn = sqlite3_column_int SqlValue.null ∧
     get_last_applied_version emptyLedgerConn = 0 ∧
     (apply_migrations 3 emptyLedgerConn [migA]).1.committed.ledger.map LedgerRow.Version =
       (List.range [migA].length).map (fun i : Nat => (i : Int) + 1)) :=
  ⟨⟨by decide, by decide, by decide, by decide⟩,
    empty_ledger_version_zero emptyLedgerConn 3 [migA] (by decide) (by decide) (by decide)
      (by decide)⟩

/-- C8 counterexample: move-assigning a connection holding handle 2 onto a
connection holding handle 1 leaves the moved-from instance holding handle
1, not the empty handle, and its destructor releases that handle, so the
moved-from instance neither holds no handle nor performs no release. -/
theorem move_assign_swap_cex :
    ¬ ((dbMoveAssign (some 1) (some 2)).2 = none ∧
       dbDestructorReleases (dbMoveAssign (some 1) (some 2)).2 = []) := by
  decide

/-- C8 amended: move construction transfers the handle and leaves the
moved-from instance with no handle and no release; move assignment swaps
the two handles, so the moved-from instance holds the previous handle of
the destination and releases exactly that one on destruction; across both
objects of either operation the handles held, and hence the handles
released by the destructors, are preserved, so every handle is released
exactly once. The same holds for statements, whose move operations also
swap the fetch readiness flag. -/
theorem move_ownership_swap (h1 h2 : Option Nat) (s1 s2 : StmtObj) :
    dbMoveConstruct h1 = (h1, none) ∧
    dbDestructorReleases (dbMoveConstruct h1).2 = [] ∧
    dbMoveAssign h1 h2 = (h2, h1) ∧
    dbDestructorReleases (dbMoveAssign h1 h2).1 ++ dbDestructorReleases (dbMoveAssign h1 h2).2
      = dbDestructorReleases h2 ++ dbDestructorReleases h1 ∧
    statementMoveConstruct s1 = (s1, { stmtHandle := none, can_fetch := false }) ∧
    statementDestructorReleases (statementMoveConstruct s1).2 = [] ∧
    statementMoveAssign s1 s2 = (s2, s1) ∧
    statementDestructorReleases (statementMoveAssign s1 s2).1 ++
        statementDestructorReleases (statementMoveAssign s1 s2).2
      = statementDestructorReleases s2 ++ statementDestructorReleases s1 :=
  ⟨rfl, rfl, rfl, rfl, rfl, rfl, rfl, rfl⟩

/-- C10: the boost optional column read is well defined exactly when the
column is NULL or the passed optional is engaged: the undefined case (the
dereference of a disengaged optional) occurs precisely when the column is
non NULL and the output optional is empty. -/
theorem boost_optional_column_engaged_precondition {τ : Type} (ops : TypeOps τ)
    (v : SqlValue) (arg : Option τ) :
    boost_optional_column ops v arg = none ↔ (v ≠ SqlValue.null ∧ arg = none) := by
  unfold boost_optional_column
  by_cases hv : v = SqlValue.null
  · rw [if_pos hv]
    simp [hv]
  · rw [if_neg hv]
    cases arg <;> simp [hv]

end Sqlite3Wrapper
